import Mathlib

/-!
Verification development for the GLM proxy repository.

The repository sits between an OpenAI-style chat client and the chat.z.ai
backend.  The parts modelled here are the ones the checked properties are
about:

* `SignatureHelper` — a shallow embedding of `src/glm_cli/signature_helper.py`
  (request signing: canonical payload, 5-minute-window subkey, HMAC-SHA256).
* `ApiClient` — a shallow embedding of the SSE demultiplexer inside
  `GLMClient.send_message` (`src/glm_cli/api_client.py`, lines 347-431).
* `Server` — a shallow embedding of the tool-call synthesis pipeline of
  `src/glm_proxy/server.py` (`_repair_json`, `_extract_tool_call`,
  `_extract_partial_tool_call`, `_is_valid_write_call`, the fallback
  heuristics and the non-streaming dispatch of `chat_completions`).

Python strings are modelled as Lean `String`s, but every operation on them
(search, split, replace, strip, lower, comparison) is implemented here over
`List Char` so that all definitions compute by kernel reduction.  Python
integers are `Nat` (all integers involved are non-negative), dictionaries are
association lists with Python's insertion-order update semantics, and JSON
values are the `Server.Json` inductive with a fuel-based parser.
-/

namespace PyStr

/-- Python's `str.lower()` restricted to ASCII (all strings in the modelled
code paths are ASCII). -/
def lowerChars (cs : List Char) : List Char := cs.map Char.toLower

/-- Is `needle` a prefix of `haystack`? (`str.startswith`). -/
def isPrefixOfB : List Char → List Char → Bool
  | [], _ => true
  | p :: ps, haystack =>
    match haystack with
    | [] => false
    | q :: qs => p = q && isPrefixOfB ps qs

/-- First index at which `needle` occurs in `haystack` (`str.find`, but
`none` instead of `-1`). -/
def findSub : List Char → List Char → Option Nat
  | _, [] => some 0
  | [], _ :: _ => none
  | a :: as, n :: ns =>
    if isPrefixOfB (n :: ns) (a :: as) then some 0
    else (findSub as (n :: ns)).map (· + 1)

/-- Python's `needle in haystack` substring test. -/
def containsSub (haystack needle : List Char) : Bool :=
  (findSub haystack needle).isSome

/-- `str.endswith` for a single suffix. -/
def isSuffixOfB (needle haystack : List Char) : Bool :=
  isPrefixOfB needle.reverse haystack.reverse

/-- Split on a non-empty separator, keeping empty pieces (`str.split(sep)`).
Fuel-based recursion; the initial fuel `length + 1` always suffices. -/
def splitOnFuel (sep : List Char) : Nat → List Char → List Char → List String
  | 0, acc, rest => [String.mk (acc.reverse ++ rest)]
  | _ + 1, acc, [] => [String.mk acc.reverse]
  | fuel + 1, acc, c :: rest =>
    if isPrefixOfB sep (c :: rest) then
      String.mk acc.reverse :: splitOnFuel sep fuel [] (List.drop sep.length (c :: rest))
    else
      splitOnFuel sep fuel (c :: acc) rest

/-- Python's `str.split(sep)` for a non-empty separator. -/
def pySplitOn (s sep : String) : List String :=
  splitOnFuel sep.data (s.data.length + 1) [] s.data

/-- Replace all occurrences of `pat` (non-empty) by `rep` (`str.replace`). -/
def replaceFuel (pat rep : List Char) : Nat → List Char → List Char
  | 0, rest => rest
  | _ + 1, [] => []
  | fuel + 1, c :: rest =>
    if isPrefixOfB pat (c :: rest) then
      rep ++ replaceFuel pat rep fuel (List.drop pat.length (c :: rest))
    else
      c :: replaceFuel pat rep fuel rest

/-- Python's `str.replace(pat, rep)` for a non-empty pattern. -/
def pyReplace (s pat rep : String) : String :=
  String.mk (replaceFuel pat.data rep.data (s.data.length + 1) s.data)

/-- Python's whitespace set for `str.strip()` / `str.rstrip()`. -/
def isPyWs (c : Char) : Bool :=
  c = ' ' || c = '\t' || c = '\n' || c = '\r' || c = '\x0b' || c = '\x0c'

/-- Strip characters satisfying `p` from both ends. -/
def stripWith (p : Char → Bool) (cs : List Char) : List Char :=
  ((cs.dropWhile p).reverse.dropWhile p).reverse

/-- Python `str.strip()`. -/
def pyStrip (s : String) : String := String.mk (stripWith isPyWs s.data)

/-- Python `str.strip(chars)`. -/
def pyStripChars (chars : List Char) (s : String) : String :=
  String.mk (stripWith (fun c => chars.contains c) s.data)

/-- Python `str.rstrip()`. -/
def pyRStrip (s : String) : String :=
  String.mk (s.data.reverse.dropWhile isPyWs).reverse

/-- Python `str.rstrip(chars)`. -/
def pyRStripChars (chars : List Char) (s : String) : String :=
  String.mk (s.data.reverse.dropWhile (fun c => chars.contains c)).reverse

/-- Python string comparison `a < b` (lexicographic on code points). -/
def ltChars : List Char → List Char → Bool
  | [], rhs => !rhs.isEmpty
  | _ :: _, [] => false
  | a :: as, b :: bs =>
    if a.toNat < b.toNat then true
    else if b.toNat < a.toNat then false
    else ltChars as bs

/-- Python string comparison `a < b`. -/
def pyLt (a b : String) : Bool := ltChars a.data b.data

/-- `str.startswith` on strings. -/
def pyStartsWith (s pre : String) : Bool := isPrefixOfB pre.data s.data

/-- `str.endswith` on strings. -/
def pyEndsWith (s suf : String) : Bool := isSuffixOfB suf.data s.data

/-- `needle in haystack` on strings. -/
def pyContains (haystack needle : String) : Bool :=
  containsSub haystack.data needle.data

/-- `str.lower()` on strings. -/
def pyLower (s : String) : String := String.mk (lowerChars s.data)

/-- Python's `str(n)` for a non-negative integer: decimal digits.
Fuel-based; `natDecRepr` supplies fuel `n`. -/
def natDecAux : Nat → Nat → List Char
  | 0, _ => []
  | _, 0 => []
  | fuel + 1, n => Char.ofNat (48 + n % 10) :: natDecAux fuel (n / 10)

/-- Python's `str(n)` for `n : Nat` (little-endian digit list reversed). -/
def natDecRepr (n : Nat) : String :=
  if n = 0 then "0" else String.mk (natDecAux n n).reverse

/-- Value of a little-endian decimal digit list; inverse of `natDecAux`. -/
def ofDecRev : List Char → Nat
  | [] => 0
  | c :: rest => (c.toNat - 48) + 10 * ofDecRev rest

theorem ofDecRev_natDecAux (fuel n : Nat) (h : n ≤ fuel) :
    ofDecRev (natDecAux fuel n) = n := by
  induction fuel generalizing n with
  | zero => interval_cases n; rfl
  | succ fuel ih =>
    match n with
    | 0 => rfl
    | m + 1 =>
      have hdiv : (m + 1) / 10 ≤ fuel := by
        have := Nat.div_lt_self (Nat.succ_pos m) (by norm_num : 1 < 10)
        omega
      have hmod : (m + 1) % 10 < 10 := Nat.mod_lt _ (by norm_num)
      simp only [natDecAux, ofDecRev, ih _ hdiv]
      have hmod : (m + 1) % 10 < 10 := Nat.mod_lt _ (by norm_num)
      have hchar : (Char.ofNat (48 + (m + 1) % 10)).toNat = 48 + (m + 1) % 10 := by
        revert hmod
        generalize (m + 1) % 10 = d
        intro hmod
        interval_cases d <;> decide
      rw [hchar]
      omega

theorem decode_natDecRepr (n : Nat) : ofDecRev (natDecRepr n).data.reverse = n := by
  by_cases h : n = 0
  · subst h; rfl
  · simp only [natDecRepr, if_neg h]
    show ofDecRev ((natDecAux n n).reverse).reverse = n
    rw [List.reverse_reverse]
    exact ofDecRev_natDecAux n n le_rfl

theorem natDecRepr_injective : Function.Injective natDecRepr := by
  intro a b hab
  rw [← decode_natDecRepr a, ← decode_natDecRepr b, hab]

/-- Every character of `natDecRepr n` is an ASCII digit. -/
theorem natDecAux_digits (fuel n : Nat) : ∀ c ∈ natDecAux fuel n, c.isDigit = true := by
  induction fuel generalizing n with
  | zero => intro c hc; simp [natDecAux] at hc
  | succ fuel ih =>
    intro c hc
    match n with
    | 0 => simp [natDecAux] at hc
    | m + 1 =>
      simp only [natDecAux, List.mem_cons] at hc
      rcases hc with hc | hc
      · subst hc
        have hmod : (m + 1) % 10 < 10 := Nat.mod_lt _ (by norm_num)
        revert hmod
        generalize (m + 1) % 10 = d
        intro hmod
        interval_cases d <;> decide
      · exact ih _ c hc

theorem natDecRepr_digits (n : Nat) : ∀ c ∈ (natDecRepr n).data, c.isDigit = true := by
  intro c hc
  by_cases h : n = 0
  · subst h
    have h0 : (natDecRepr 0).data = ['0'] := rfl
    rw [h0] at hc
    simp at hc; subst hc; decide
  · simp only [natDecRepr, if_neg h] at hc
    rw [List.mem_reverse] at hc
    exact natDecAux_digits n n c hc

end PyStr

namespace Crypto

/-- 2^32, the word modulus of SHA-256. -/
def M32 : Nat := 4294967296

/-- Rotate the word `x` right by `n` bits, truncated to 32 bits. -/
def rotr (x n : Nat) : Nat := ((x >>> n) ||| (x <<< (32 - n))) % M32

/-- The sixty-four SHA-256 round constants (FIPS 180-4), in decimal. -/
def shaK : List Nat :=
  [1116352408, 1899447441, 3049323471, 3921009573, 961987163, 1508970993,
   2453635748, 2870763221, 3624381080, 310598401, 607225278, 1426881987,
   1925078388, 2162078206, 2614888103, 3248222580, 3835390401, 4022224774,
   264347078, 604807628, 770255983, 1249150122, 1555081692, 1996064986,
   2554220882, 2821834349, 2952996808, 3210313671, 3336571891, 3584528711,
   113926993, 338241895, 666307205, 773529912, 1294757372, 1396182291,
   1695183700, 1986661051, 2177026350, 2456956037, 2730485921, 2820302411,
   3259730800, 3345764771, 3516065817, 3600352804, 4094571909, 275423344,
   430227734, 506948616, 659060556, 883997877, 958139571, 1322822218,
   1537002063, 1747873779, 1955562222, 2024104815, 2227730452, 2361852424,
   2428436474, 2756734187, 3204031479, 3329325298]

/-- The SHA-256 initial hash value (FIPS 180-4), in decimal. -/
def shaH0 : List Nat :=
  [1779033703, 3144134277, 1013904242, 2773480762,
   1359893119, 2600822924, 528734635, 1541459225]

/-- SHA-256 padding: append `0x80`, zeros, and the 64-bit big-endian bit length. -/
def padMessage (msg : List Nat) : List Nat :=
  let len := msg.length
  let bitLen := len * 8
  let padZeros := (55 - len % 64 + 64) % 64
  msg ++ [0x80] ++ List.replicate padZeros 0 ++
    [(bitLen >>> 56) % 256, (bitLen >>> 48) % 256, (bitLen >>> 40) % 256, (bitLen >>> 32) % 256,
     (bitLen >>> 24) % 256, (bitLen >>> 16) % 256, (bitLen >>> 8) % 256, bitLen % 256]

/-- Group bytes into big-endian 32-bit words. -/
def bytesToWords : List Nat → List Nat
  | a :: b :: c :: d :: rest => (a * 16777216 + b * 65536 + c * 256 + d) :: bytesToWords rest
  | _ => []

def smallSigma0 (x : Nat) : Nat := (rotr x 7) ^^^ (rotr x 18) ^^^ (x >>> 3)
def smallSigma1 (x : Nat) : Nat := (rotr x 17) ^^^ (rotr x 19) ^^^ (x >>> 10)
def bigSigma0 (x : Nat) : Nat := (rotr x 2) ^^^ (rotr x 13) ^^^ (rotr x 22)
def bigSigma1 (x : Nat) : Nat := (rotr x 6) ^^^ (rotr x 11) ^^^ (rotr x 25)

/-- One step of the message-schedule extension, acting on the reversed
schedule built so far: `w[t] = σ1(w[t-2]) + w[t-7] + σ0(w[t-15]) + w[t-16]`. -/
def scheduleStep (acc : List Nat) : Nat :=
  ((smallSigma1 (acc.getD 1 0)) + acc.getD 6 0 + smallSigma0 (acc.getD 14 0) + acc.getD 15 0) % M32

/-- Extend the 16 block words to the 64-word schedule. -/
def buildSchedule : Nat → List Nat → List Nat
  | 0, acc => acc.reverse
  | n + 1, acc => buildSchedule n (scheduleStep acc :: acc)

/-- The eight working variables of the compression function. -/
structure Hash8 where
  a : Nat
  b : Nat
  c : Nat
  d : Nat
  e : Nat
  f : Nat
  g : Nat
  h : Nat

/-- One round of the SHA-256 compression function. -/
def compressStep (st : Hash8) (kw : Nat × Nat) : Hash8 :=
  let t1 := (st.h + bigSigma1 st.e + ((st.e &&& st.f) ^^^ ((M32 - 1 - st.e) &&& st.g)) + kw.1 + kw.2) % M32
  let t2 := (bigSigma0 st.a + ((st.a &&& st.b) ^^^ (st.a &&& st.c) ^^^ (st.b &&& st.c))) % M32
  ⟨(t1 + t2) % M32, st.a, st.b, st.c, (st.d + t1) % M32, st.e, st.f, st.g⟩

/-- Process one 16-word block, updating the running hash. -/
def processBlock (h : List Nat) (blockWords : List Nat) : List Nat :=
  let w := buildSchedule 48 blockWords.reverse
  let init : Hash8 :=
    ⟨h.getD 0 0, h.getD 1 0, h.getD 2 0, h.getD 3 0, h.getD 4 0, h.getD 5 0, h.getD 6 0, h.getD 7 0⟩
  let fin := (shaK.zip w).foldl compressStep init
  [(h.getD 0 0 + fin.a) % M32, (h.getD 1 0 + fin.b) % M32, (h.getD 2 0 + fin.c) % M32,
   (h.getD 3 0 + fin.d) % M32, (h.getD 4 0 + fin.e) % M32, (h.getD 5 0 + fin.f) % M32,
   (h.getD 6 0 + fin.g) % M32, (h.getD 7 0 + fin.h) % M32]

/-- Split a padded message into 64-byte chunks (fuel-based). -/
def chunks64Fuel : Nat → List Nat → List (List Nat)
  | 0, _ => []
  | _, [] => []
  | fuel + 1, l => l.take 64 :: chunks64Fuel fuel (l.drop 64)

def chunks64 (l : List Nat) : List (List Nat) := chunks64Fuel l.length l

/-- SHA-256 of a byte list, as a 32-byte list. -/
def sha256 (msg : List Nat) : List Nat :=
  let blocks := chunks64 (padMessage msg)
  let hFinal := blocks.foldl (fun h b => processBlock h (bytesToWords b)) shaH0
  hFinal.foldr
    (fun w acc => (w >>> 24) % 256 :: (w >>> 16) % 256 :: (w >>> 8) % 256 :: w % 256 :: acc) []

/-- UTF-8 encoding of one character (as byte values). -/
def utf8Char (c : Char) : List Nat :=
  let n := c.toNat
  if n < 0x80 then [n]
  else if n < 0x800 then
    [0xC0 ||| (n >>> 6), 0x80 ||| (n &&& 0x3F)]
  else if n < 0x10000 then
    [0xE0 ||| (n >>> 12), 0x80 ||| ((n >>> 6) &&& 0x3F), 0x80 ||| (n &&& 0x3F)]
  else
    [0xF0 ||| (n >>> 18), 0x80 ||| ((n >>> 12) &&& 0x3F), 0x80 ||| ((n >>> 6) &&& 0x3F),
     0x80 ||| (n &&& 0x3F)]

/-- UTF-8 bytes of a string (Python `s.encode("utf-8")`). -/
def utf8Bytes (s : String) : List Nat :=
  s.data.foldr (fun c acc => utf8Char c ++ acc) []

/-- Lower-case hex digit for a nibble. -/
def hexDigit (n : Nat) : Char :=
  if n < 10 then Char.ofNat (48 + n) else Char.ofNat (87 + n)

/-- Lower-case hex string of a byte list (Python `hexdigest()`). -/
def bytesToHex (bs : List Nat) : String :=
  String.mk (bs.foldr (fun b acc => hexDigit (b / 16) :: hexDigit (b % 16) :: acc) [])

/-- HMAC-SHA256 over byte lists (RFC 2104, block size 64). -/
def hmacSha256 (key msg : List Nat) : List Nat :=
  let k0 := if key.length > 64 then sha256 key else key
  let kPad := k0 ++ List.replicate (64 - k0.length) 0
  let ipad := kPad.map (fun b => b ^^^ 0x36)
  let opad := kPad.map (fun b => b ^^^ 0x5c)
  sha256 (opad ++ sha256 (ipad ++ msg))

/-- The base64 alphabet. -/
def b64Char (n : Nat) : Char :=
  "ABCDEFGHIJKLMNOPQRSTUVWXYZabcdefghijklmnopqrstuvwxyz0123456789+/".data.getD n 'A'

/-- Standard base64 encoding with `=` padding (Python `base64.b64encode`). -/
def base64Chars : List Nat → List Char
  | [] => []
  | [a] => [b64Char (a >>> 2), b64Char ((a &&& 3) <<< 4), '=', '=']
  | [a, b] => [b64Char (a >>> 2), b64Char (((a &&& 3) <<< 4) ||| (b >>> 4)),
               b64Char ((b &&& 15) <<< 2), '=']
  | a :: b :: c :: rest =>
    b64Char (a >>> 2) :: b64Char (((a &&& 3) <<< 4) ||| (b >>> 4)) ::
    b64Char (((b &&& 15) <<< 2) ||| (c >>> 6)) :: b64Char (c &&& 63) :: base64Chars rest

def base64Encode (bs : List Nat) : String := String.mk (base64Chars bs)

end Crypto

namespace SignatureHelper

/-!
Shallow embedding of `src/glm_cli/signature_helper.py`.
Python's non-negative integers are `Nat`; `str(timestamp)` is
`PyStr.natDecRepr`.
-/

open Crypto

/-- `SIGNATURE_KEY`: the static key string (signature_helper.py line 22). -/
def SIGNATURE_KEY : String := "key-@@@@)))()((9))-xxxx&&&%%%%%"

/-- `_hmac_sha256_hex`: hex digest of HMAC-SHA256 with UTF-8 string key and
message (signature_helper.py lines 25-31). -/
def hmac_sha256_hex (key message : String) : String :=
  bytesToHex (hmacSha256 (utf8Bytes key) (utf8Bytes message))

/-- `_prompt_b64`: base64 of the UTF-8 prompt bytes (lines 34-36). -/
def prompt_b64 (prompt : String) : String := base64Encode (utf8Bytes prompt)

/-- Python's stable `sorted` on key/value pairs ordered by key: a stable
insertion sort using code-point string comparison. -/
def insortByKey (x : String × String) : List (String × String) → List (String × String)
  | [] => [x]
  | y :: ys => if PyStr.pyLt x.1 y.1 then x :: y :: ys else y :: insortByKey x ys

def pySortedByKey (l : List (String × String)) : List (String × String) :=
  l.foldl (fun acc kv => insortByKey kv acc) []

/-- `build_sorted_payload` (lines 39-55): entries
`{timestamp, requestId, user_id}` sorted by key, flattened to alternating
`key, value` tokens, joined by `","`. -/
def build_sorted_payload (timestamp : Nat) (request_id user_id : String) : String :=
  let items := [("timestamp", PyStr.natDecRepr timestamp),
                ("requestId", request_id),
                ("user_id", user_id)]
  let ordered := pySortedByKey items
  String.intercalate "," (ordered.foldr (fun kv acc => kv.1 :: kv.2 :: acc) [])

/-- `time_window = int(timestamp) // 300000` and the derived subkey
`hex(HMAC-SHA256(SIGNATURE_KEY, str(time_window)))` (lines 74-75). -/
def subkey_hex (timestamp : Nat) : String :=
  hmac_sha256_hex SIGNATURE_KEY (PyStr.natDecRepr (timestamp / 300000))

/-- `data_to_sign = f"{sorted_payload}|{_prompt_b64(prompt)}|{timestamp}"`
(line 76). -/
def data_to_sign (sorted_payload prompt : String) (timestamp : Nat) : String :=
  sorted_payload ++ "|" ++ prompt_b64 prompt ++ "|" ++ PyStr.natDecRepr timestamp

/-- `generate_signature` (lines 58-77). -/
def generate_signature (sorted_payload prompt : String) (timestamp : Nat) : String :=
  hmac_sha256_hex (subkey_hex timestamp) (data_to_sign sorted_payload prompt timestamp)

/-- Result record of `generate_request_params` (lines 80-101). -/
structure RequestParams where
  timestamp : Nat
  request_id : String
  signature : String
  sorted_payload : String

/-- `generate_request_params` (lines 80-101), with the timestamp and request
id passed explicitly (in the source their defaults are drawn from the wall
clock and a fresh UUID, i.e. they are inputs of the computation). -/
def generate_request_params (prompt user_id : String) (timestamp : Nat)
    (request_id : String) : RequestParams :=
  let sorted_payload := build_sorted_payload timestamp request_id user_id
  let signature := generate_signature sorted_payload prompt timestamp
  ⟨timestamp, request_id, signature, sorted_payload⟩

end SignatureHelper

namespace SignatureSpec

/-!
The signing algorithm as §4.1 of the spec words it, written independently of
the embedding above so that the two can be compared (claim C1).
-/

open Crypto

/-- Step 1 of §4.1, following the spec's words: the canonical payload is the
entries `{timestamp, requestId, user_id}` sorted by key name in ASCII order
(`"requestId" < "timestamp" < "user_id"`), flattened as alternating
`key,value` tokens and joined by `","`. -/
def canonicalPayload (timestamp : Nat) (requestId userId : String) : String :=
  String.intercalate ","
    ["requestId", requestId, "timestamp", PyStr.natDecRepr timestamp, "user_id", userId]

/-- Steps 2-3 of §4.1: `subkey = hex(HMAC-SHA256(staticKey, toString(floor(ts/300000))))`. -/
def subkey (timestamp : Nat) : String :=
  bytesToHex (hmacSha256 (utf8Bytes SignatureHelper.SIGNATURE_KEY)
    (utf8Bytes (PyStr.natDecRepr (timestamp / 300000))))

/-- Step 4 of §4.1: `signingInput = canonicalPayload + "|" + base64(utf8Bytes(prompt)) + "|" + timestampMs`. -/
def signingInput (prompt userId : String) (timestamp : Nat) (requestId : String) : String :=
  canonicalPayload timestamp requestId userId ++ "|" ++ base64Encode (utf8Bytes prompt)
    ++ "|" ++ PyStr.natDecRepr timestamp

/-- Step 5 of §4.1: `signature = hex(HMAC-SHA256(subkey, signingInput))`. -/
def signature (prompt userId : String) (timestamp : Nat) (requestId : String) : String :=
  bytesToHex (hmacSha256 (utf8Bytes (subkey timestamp))
    (utf8Bytes (signingInput prompt userId timestamp requestId)))

/-- The three payload keys really are in ASCII order. -/
theorem keys_ascii_sorted :
    PyStr.pyLt "requestId" "timestamp" = true ∧ PyStr.pyLt "timestamp" "user_id" = true := by
  decide

end SignatureSpec

section StringFacts

/-- `takeWhile` passes over a block that satisfies the predicate. -/
theorem takeWhile_append_of_all {p : Char → Bool} {l l' : List Char}
    (h : ∀ c ∈ l, p c = true) :
    (l ++ l').takeWhile p = l ++ l'.takeWhile p := by
  induction l with
  | nil => simp
  | cons c cs ih =>
    simp only [List.cons_append, List.takeWhile_cons, h c (by simp),
      if_pos trivial, ih (fun x hx => h x (by simp [hx]))]

/-- The maximal run of ASCII digits at the end of a string. -/
def trailingDigits (s : String) : String :=
  String.mk (s.data.reverse.takeWhile Char.isDigit).reverse

/-- Appending `"|" ++ d` with `d` all digits makes `d` the trailing digit
run (`'|'` is not a digit). -/
theorem trailingDigits_pipe (x d : String) (hd : ∀ c ∈ d.data, c.isDigit = true) :
    trailingDigits (x ++ "|" ++ d) = d := by
  have h1 : (x ++ "|" ++ d).data = (x.data ++ ['|']) ++ d.data := by
    rw [String.data_append, String.data_append]
  unfold trailingDigits
  rw [h1]
  rw [List.reverse_append, List.reverse_append]
  rw [takeWhile_append_of_all (fun c hc => hd c (List.mem_reverse.mp hc))]
  rw [show (['|'].reverse ++ x.data.reverse).takeWhile Char.isDigit = [] by
    rw [List.reverse_singleton]
    simp only [List.singleton_append, List.takeWhile_cons]
    rw [show ('|' : Char).isDigit = false by decide]
    rfl]
  rw [List.append_nil, List.reverse_reverse]

end StringFacts

/-- C1: for every prompt `p`, user id `uid`, millisecond timestamp `ts` and
request id `rid`, the signer (`generate_request_params`, built from
`build_sorted_payload` and `generate_signature`) returns exactly
`hex(HMAC-SHA256(subkey, signingInput))` as §4.1 of the spec describes it:
canonical payload = `{timestamp, requestId, user_id}` entries sorted by key
in ASCII order, flattened as alternating `key,value` tokens joined by `,`;
`subkey = hex(HMAC-SHA256(staticKey, toString(floor(ts/300000))))`;
`signingInput = canonicalPayload|base64(utf8(p))|ts`.  Reproducibility is
inherent: the embedded signer is a pure function of `(p, uid, ts, rid)`. -/
theorem C1_signer_matches_spec (prompt user_id : String) (timestamp : Nat)
    (request_id : String) :
    (SignatureHelper.generate_request_params prompt user_id timestamp request_id).signature
      = SignatureSpec.signature prompt user_id timestamp request_id := rfl

set_option maxRecDepth 1000000 in
/-- C8: timestamps in the same 300000 ms bucket share the derived subkey;
with request id, user id and prompt held fixed, distinct timestamps always
give distinct signing inputs (the signing input embeds the exact millisecond
timestamp); and at the spec's corpus point
(`t1 = 1700000000000`, `t2 = 1700000000001`, same bucket) the two final
signatures indeed differ. -/
theorem C8_time_window_stability :
    (∀ t1 t2 : Nat, t1 / 300000 = t2 / 300000 →
      SignatureHelper.subkey_hex t1 = SignatureHelper.subkey_hex t2)
    ∧ (∀ (rid uid p : String) (t1 t2 : Nat), t1 ≠ t2 →
      SignatureHelper.data_to_sign (SignatureHelper.build_sorted_payload t1 rid uid) p t1 ≠
      SignatureHelper.data_to_sign (SignatureHelper.build_sorted_payload t2 rid uid) p t2)
    ∧ ((1700000000000 : Nat) / 300000 = (1700000000001 : Nat) / 300000
      ∧ SignatureHelper.generate_signature
          (SignatureHelper.build_sorted_payload 1700000000000 "r1" "u1") "hello" 1700000000000 ≠
        SignatureHelper.generate_signature
          (SignatureHelper.build_sorted_payload 1700000000001 "r1" "u1") "hello" 1700000000001) := by
  refine ⟨?_, ?_, by decide, by decide⟩
  · intro t1 t2 h
    unfold SignatureHelper.subkey_hex
    rw [h]
  · intro rid uid p t1 t2 hne heq
    apply hne
    apply PyStr.natDecRepr_injective
    have h1 := congrArg trailingDigits heq
    unfold SignatureHelper.data_to_sign at h1
    rw [show ∀ (a b c : String), a ++ "|" ++ b ++ "|" ++ c = (a ++ "|" ++ b) ++ "|" ++ c by
        intro a b c; rfl] at h1
    rw [trailingDigits_pipe _ _ (PyStr.natDecRepr_digits t1),
        trailingDigits_pipe _ _ (PyStr.natDecRepr_digits t2)] at h1
    exact h1

/-- Witness for C8: the two conditional conjuncts applied at the spec's
corpus point. -/
theorem C8_witness :
    SignatureHelper.subkey_hex 1700000000000 = SignatureHelper.subkey_hex 1700000000001 ∧
    SignatureHelper.data_to_sign
        (SignatureHelper.build_sorted_payload 1700000000000 "r1" "u1") "hello" 1700000000000 ≠
      SignatureHelper.data_to_sign
        (SignatureHelper.build_sorted_payload 1700000000001 "r1" "u1") "hello" 1700000000001 :=
  ⟨C8_time_window_stability.1 1700000000000 1700000000001 (by decide),
   C8_time_window_stability.2.1 "r1" "u1" "hello" 1700000000000 1700000000001 (by decide)⟩

namespace ApiClient

/-!
Shallow embedding of the SSE demultiplexer in `GLMClient.send_message`
(`src/glm_cli/api_client.py`, lines 347-431).  The loop walks the `data: `
lines of the response; each parsed line is one of: the literal `[DONE]`
sentinel, a `choices[].delta.content` payload, a `{type:"chat:completion"}`
envelope (with `delta_content`/`content` and an optional `phase`), or
malformed JSON (skipped).  The demultiplexer state is the boolean
`in_thinking`, initially `False`.
-/

/-- The typed events yielded by `send_message` (`{"type": ..., "data": ...}`
dictionaries in the source). -/
inductive SEvent where
  | thinking (data : String)
  | thinkingEnd
  | content (data : String)
  | done
  | error (data : String)
  deriving DecidableEq

/-- One parsed `data: ` line of the SSE stream. -/
inductive Fragment where
  | doneSentinel
  | choices (deltaContents : List String)
  | completion (deltaContent content : String) (phase : Option String)
  | malformed

/-- The leftmost match of `re.search(r"<think(?: [^>]*)?>", s)` starting at
the head of `cs`, as the matched text. -/
def matchThinkOpen (cs : List Char) : Option (List Char) :=
  if PyStr.isPrefixOfB "<think".data cs then
    match cs.drop 6 with
    | '>' :: _ => some "<think>".data
    | ' ' :: rest =>
      let run := rest.takeWhile (fun c => c ≠ '>')
      if (rest.drop run.length).head? = some '>' then
        some ("<think ".data ++ run ++ ['>'])
      else none
    | _ => none
  else none

/-- Leftmost match of the `<think...>` opening-marker regex anywhere in the
fragment (`re.search`). -/
def findThinkOpen : List Char → Option (List Char)
  | [] => none
  | c :: rest =>
    match matchThinkOpen (c :: rest) with
    | some m => some m
    | none => findThinkOpen rest

/-- The tag matched by `re.split(r"(<details[^>]*>|</details>)", ...)` at the
head of `cs`, if any. -/
def matchDetailsTag (cs : List Char) : Option (List Char) :=
  if PyStr.isPrefixOfB "<details".data cs then
    let after := cs.drop 8
    let run := after.takeWhile (fun c => c ≠ '>')
    if (after.drop run.length).head? = some '>' then
      some ("<details".data ++ run ++ ['>'])
    else none
  else if PyStr.isPrefixOfB "</details>".data cs then
    some "</details>".data
  else none

/-- `re.split(r"(<details[^>]*>|</details>)", content)`: pieces and captured
tags, in order, empty pieces included (fuel-based scan). -/
def splitDetailsFuel : Nat → List Char → List Char → List String
  | 0, acc, rest => [String.mk (acc.reverse ++ rest)]
  | _ + 1, acc, [] => [String.mk acc.reverse]
  | fuel + 1, acc, c :: rest =>
    match matchDetailsTag (c :: rest) with
    | some tag =>
      String.mk acc.reverse :: String.mk tag ::
        splitDetailsFuel fuel [] (List.drop tag.length (c :: rest))
    | none => splitDetailsFuel fuel (c :: acc) rest

def splitDetails (content : String) : List String :=
  splitDetailsFuel (content.data.length + 1) [] content.data

/-- Processing of one `choices[].delta.content` string (api_client.py lines
367-389): detect and strip an inline `<think...>` opener, then split on
`</think>`; otherwise emit by current state. -/
def processChoiceContent (inThinking : Bool) (content : String) : Bool × List SEvent :=
  if content = "" then (inThinking, [])
  else
    let (inT1, c) :=
      match findThinkOpen content.data with
      | some m => (true, PyStr.pyReplace content (String.mk m) "")
      | none => (inThinking, content)
    let parts := PyStr.pySplitOn c "</think>"
    if parts.length ≥ 2 then
      (false,
        (if parts.getD 0 "" ≠ "" then [SEvent.thinking (parts.getD 0 "")] else []) ++
        [SEvent.thinkingEnd] ++
        (if parts.getD 1 "" ≠ "" then [SEvent.content (parts.getD 1 "")] else []))
    else
      (inT1, [if inT1 then SEvent.thinking c else SEvent.content c])

/-- Processing of one piece produced by the `<details>` split (api_client.py
lines 410-425). -/
def processDetailsPiece (st : Bool × List SEvent) (part : String) : Bool × List SEvent :=
  let (inT, evs) := st
  if part = "" then (inT, evs)
  else if PyStr.pyStartsWith part "<details" then (true, evs)
  else if part = "</details>" then
    if inT then (false, evs ++ [SEvent.thinkingEnd]) else (inT, evs)
  else (inT, evs ++ [if inT then SEvent.thinking part else SEvent.content part])

/-- Processing of one `chat:completion` envelope (api_client.py lines
393-426): `content = delta_content or content`; `phase=thinking` forces the
thinking state; `phase` in `answer|other|done` closes it (emitting
`thinking_end`), and `phase=done` additionally yields `done` and skips the
envelope's content; remaining content is split around `<details>` tags. -/
def processCompletion (inThinking : Bool) (deltaContent content0 : String)
    (phase : Option String) : Bool × List SEvent :=
  let c := if deltaContent ≠ "" then deltaContent else content0
  let inT1 := if phase = some "thinking" then true else inThinking
  if phase = some "answer" ∨ phase = some "other" ∨ phase = some "done" then
    let evs1 := if inT1 then [SEvent.thinkingEnd] else []
    if phase = some "done" then (false, evs1 ++ [SEvent.done])
    else
      if c ≠ "" then (splitDetails c).foldl processDetailsPiece (false, evs1)
      else (false, evs1)
  else
    if c ≠ "" then (splitDetails c).foldl processDetailsPiece (inT1, [])
    else (inT1, [])

/-- Process one fragment; the third component is `true` when the loop breaks
(only the `[DONE]` sentinel breaks, line 359). -/
def processFragment (inThinking : Bool) : Fragment → Bool × List SEvent × Bool
  | Fragment.doneSentinel => (inThinking, [SEvent.done], true)
  | Fragment.malformed => (inThinking, [], false)
  | Fragment.choices deltas =>
    let (st, evs) := deltas.foldl
      (fun (acc : Bool × List SEvent) c =>
        let (st', e) := processChoiceContent acc.1 c
        (st', acc.2 ++ e))
      (inThinking, [])
    (st, evs, false)
  | Fragment.completion dc c phase =>
    let (st, evs) := processCompletion inThinking dc c phase
    (st, evs, false)

/-- The full demultiplexer: fold `processFragment` over the parsed lines,
stopping at the `[DONE]` sentinel. -/
def processStream (inThinking : Bool) : List Fragment → List SEvent
  | [] => []
  | f :: rest =>
    let (st, evs, stop) := processFragment inThinking f
    if stop then evs else evs ++ processStream st rest

end ApiClient

/-- C2 counterexample: a stream that enters the thinking state via a
`phase=thinking` envelope and then receives the literal `[DONE]` sentinel
ends in `Done` with the thinking region unclosed — no compensating
`ThinkingEnd` is emitted anywhere, contrary to the claim. -/
theorem C2_done_sentinel_counterexample :
    ApiClient.processStream false
        [ApiClient.Fragment.completion "" "x" (some "thinking"),
         ApiClient.Fragment.doneSentinel] =
      [ApiClient.SEvent.thinking "x", ApiClient.SEvent.done] ∧
    ApiClient.SEvent.thinkingEnd ∉ ApiClient.processStream false
        [ApiClient.Fragment.completion "" "x" (some "thinking"),
         ApiClient.Fragment.doneSentinel] := by
  decide

/-- C2 amended: the literal `[DONE]` sentinel yields `Done` and terminates
the stream regardless of the current state, but *without* any compensating
`ThinkingEnd` (api_client.py lines 357-359 do not consult `in_thinking`);
the compensating `ThinkingEnd` is synthesized only on the structured
`phase=done` envelope path (lines 397-405). -/
theorem C2_done_sentinel_amended :
    (∀ st : Bool,
      ApiClient.processFragment st ApiClient.Fragment.doneSentinel =
        (st, [ApiClient.SEvent.done], true)) ∧
    (∀ (st : Bool) (rest : List ApiClient.Fragment),
      ApiClient.processStream st (ApiClient.Fragment.doneSentinel :: rest) =
        [ApiClient.SEvent.done]) ∧
    (∀ (st : Bool) (dc c : String),
      (ApiClient.processCompletion st dc c (some "done")).2 =
        if st then [ApiClient.SEvent.thinkingEnd, ApiClient.SEvent.done]
        else [ApiClient.SEvent.done]) := by
  refine ⟨?_, ?_, ?_⟩
  · intro st; cases st <;> rfl
  · intro st rest; cases st <;> rfl
  · intro st dc c; cases st <;> simp [ApiClient.processCompletion]

/-- C3: feeding the demultiplexer the single `choices[].delta.content`
fragment `"<think>abc</think>xyz"` yields exactly
`[Thinking("abc"), ThinkingEnd, Content("xyz")]`. -/
theorem C3_think_markers_demux :
    ApiClient.processStream false
        [ApiClient.Fragment.choices ["<think>abc</think>xyz"]] =
      [ApiClient.SEvent.thinking "abc", ApiClient.SEvent.thinkingEnd,
       ApiClient.SEvent.content "xyz"] := by
  decide

/-- C6 counterexample: after a `phase=done` envelope the demultiplexer does
*not* stop — the source `continue`s to the next line (api_client.py line
405), so a later fragment still emits events: here a `phase=answer` envelope
following `phase=done` still produces `Content("x")` after `Done`. -/
theorem C6_phase_done_counterexample :
    ApiClient.processStream false
        [ApiClient.Fragment.completion "" "" (some "done"),
         ApiClient.Fragment.completion "" "x" (some "answer")] =
      [ApiClient.SEvent.done, ApiClient.SEvent.content "x"] := by
  decide

/-- C6 amended: a `phase=done` envelope emits (`ThinkingEnd` if needed and)
`Done` and skips that envelope's own content, but processing then continues
with the remaining fragments (only the literal `[DONE]` sentinel stops the
loop), so events may still follow the `Done`. -/
theorem C6_phase_done_amended (st : Bool) (dc c : String)
    (rest : List ApiClient.Fragment) :
    ApiClient.processStream st (ApiClient.Fragment.completion dc c (some "done") :: rest) =
      (if st then [ApiClient.SEvent.thinkingEnd, ApiClient.SEvent.done]
       else [ApiClient.SEvent.done]) ++ ApiClient.processStream false rest := by
  cases st <;>
    simp [ApiClient.processStream, ApiClient.processFragment, ApiClient.processCompletion]

namespace Server

/-!
Shallow embedding of the tool-call synthesis pipeline of
`src/glm_proxy/server.py`.  Python/JSON values are the `Json` inductive;
`json.loads` is the fuel-based strict parser below (standard JSON: the
modelled code only ever inspects objects, arrays and strings; numeric
literals are carried verbatim as their source text).  Python dicts are
association lists: updating an existing key keeps its position (`assocSet`),
lookup takes the first (unique) occurrence.
-/

inductive Json where
  | null
  | bool (b : Bool)
  | num (raw : String)
  | str (s : String)
  | arr (items : List Json)
  | obj (fields : List (String × Json))

/-- First binding of `k` (Python `d[k]` / `d.get(k)`). -/
def assocGet (fields : List (String × Json)) (k : String) : Option Json :=
  match fields with
  | [] => none
  | (k', v) :: rest => if k' = k then some v else assocGet rest k

/-- Python dict update `d[k] = v`: replace in place if present, else append. -/
def assocSet (fields : List (String × Json)) (k : String) (v : Json) :
    List (String × Json) :=
  match fields with
  | [] => [(k, v)]
  | (k', v') :: rest => if k' = k then (k, v) :: rest else (k', v') :: assocSet rest k v

/-- Python `k in d`. -/
def assocHas (fields : List (String × Json)) (k : String) : Bool :=
  (assocGet fields k).isSome

/-- Is a valid JSON numeric literal zero?  True iff every digit of the
mantissa is `0` (the exponent cannot change that). -/
def numIsZero (raw : String) : Bool :=
  (raw.data.takeWhile (fun c => c ≠ 'e' ∧ c ≠ 'E')).all (fun c => !c.isDigit || c = '0')

/-- Python truthiness of a JSON value (`bool(x)`). -/
def jsonTruthy : Json → Bool
  | Json.null => false
  | Json.bool b => b
  | Json.num raw => !numIsZero raw
  | Json.str s => s ≠ ""
  | Json.arr items => !items.isEmpty
  | Json.obj fields => !fields.isEmpty

/-- JSON whitespace. -/
def jsonWs (c : Char) : Bool := c = ' ' || c = '\t' || c = '\n' || c = '\r'

def skipWs (cs : List Char) : List Char := cs.dropWhile jsonWs

/-- Hex digit value. -/
def hexVal (c : Char) : Option Nat :=
  if '0' ≤ c ∧ c ≤ '9' then some (c.toNat - 48)
  else if 'a' ≤ c ∧ c ≤ 'f' then some (c.toNat - 87)
  else if 'A' ≤ c ∧ c ≤ 'F' then some (c.toNat - 55)
  else none

/-- Body of a JSON string literal (after the opening quote), with the
standard escapes; `\uXXXX` becomes the code point (surrogate pairs are not
re-combined — none occur in the modelled inputs). -/
def parseStringBody : Nat → List Char → List Char → Option (String × List Char)
  | 0, _, _ => none
  | _ + 1, _, [] => none
  | fuel + 1, acc, c :: rest =>
    if c = '"' then some (String.mk acc.reverse, rest)
    else if c = '\\' then
      match rest with
      | [] => none
      | e :: rest2 =>
        if e = '"' then parseStringBody fuel ('"' :: acc) rest2
        else if e = '\\' then parseStringBody fuel ('\\' :: acc) rest2
        else if e = '/' then parseStringBody fuel ('/' :: acc) rest2
        else if e = 'b' then parseStringBody fuel ('\x08' :: acc) rest2
        else if e = 'f' then parseStringBody fuel ('\x0c' :: acc) rest2
        else if e = 'n' then parseStringBody fuel ('\n' :: acc) rest2
        else if e = 'r' then parseStringBody fuel ('\r' :: acc) rest2
        else if e = 't' then parseStringBody fuel ('\t' :: acc) rest2
        else if e = 'u' then
          match rest2 with
          | h1 :: h2 :: h3 :: h4 :: rest3 =>
            match hexVal h1, hexVal h2, hexVal h3, hexVal h4 with
            | some a, some b, some c', some d =>
              parseStringBody fuel
                (Char.ofNat (a * 4096 + b * 256 + c' * 16 + d) :: acc) rest3
            | _, _, _, _ => none
          | _ => none
        else none
    else parseStringBody fuel (c :: acc) rest

/-- A strict JSON numeric literal, returned as its source text. -/
def parseNumber (cs : List Char) : Option (Json × List Char) :=
  let (sign, cs1) := match cs with
    | '-' :: r => ((['-'] : List Char), r)
    | _ => (([] : List Char), cs)
  match cs1 with
  | [] => none
  | c :: _ =>
    if !c.isDigit then none
    else
      let intRun := cs1.takeWhile Char.isDigit
      if intRun.length > 1 ∧ intRun.head? = some '0' then none
      else
        let rest1 := cs1.drop intRun.length
        let fracPart : Option (List Char × List Char) :=
          match rest1 with
          | '.' :: r =>
            let d := r.takeWhile Char.isDigit
            if d.isEmpty then none else some ('.' :: d, r.drop d.length)
          | _ => some ([], rest1)
        match fracPart with
        | none => none
        | some (frac, rest2) =>
          let expPart : Option (List Char × List Char) :=
            match rest2 with
            | e :: r =>
              if e = 'e' ∨ e = 'E' then
                let (sgn, r2) := match r with
                  | '+' :: r' => ((['+'] : List Char), r')
                  | '-' :: r' => ((['-'] : List Char), r')
                  | _ => (([] : List Char), r)
                let d := r2.takeWhile Char.isDigit
                if d.isEmpty then none else some (e :: (sgn ++ d), r2.drop d.length)
              else some ([], rest2)
            | [] => some ([], rest2)
          match expPart with
          | none => none
          | some (ex, rest3) =>
            some (Json.num (String.mk (sign ++ intRun ++ frac ++ ex)), rest3)

mutual

/-- Strict JSON value parser (`json.loads` grammar), fuel-based. -/
def parseValue : Nat → List Char → Option (Json × List Char)
  | 0, _ => none
  | fuel + 1, cs =>
    match skipWs cs with
    | [] => none
    | c :: rest =>
      if c = 'n' then
        if PyStr.isPrefixOfB "ull".data rest then some (Json.null, rest.drop 3) else none
      else if c = 't' then
        if PyStr.isPrefixOfB "rue".data rest then some (Json.bool true, rest.drop 3) else none
      else if c = 'f' then
        if PyStr.isPrefixOfB "alse".data rest then some (Json.bool false, rest.drop 4) else none
      else if c = '"' then
        match parseStringBody (rest.length + 1) [] rest with
        | some (s, rest') => some (Json.str s, rest')
        | none => none
      else if c = '[' then
        match skipWs rest with
        | ']' :: rest' => some (Json.arr [], rest')
        | cs' =>
          match parseValue fuel cs' with
          | some (v, r1) =>
            match parseArraySep fuel r1 with
            | some (vs, r2) => some (Json.arr (v :: vs), r2)
            | none => none
          | none => none
      else if c = '{' then
        match skipWs rest with
        | '}' :: rest' => some (Json.obj [], rest')
        | cs' =>
          match parseMember fuel cs' with
          | some (k, v, r1) =>
            match parseObjSep fuel r1 with
            | some (fields, r2) =>
              some (Json.obj ((((k, v)) :: fields).foldl
                (fun acc kv => assocSet acc kv.1 kv.2) []), r2)
            | none => none
          | none => none
      else if c = '-' ∨ c.isDigit then parseNumber (c :: rest)
      else none

/-- After an array element: `, value ...` or `]`. -/
def parseArraySep : Nat → List Char → Option (List Json × List Char)
  | 0, _ => none
  | fuel + 1, cs =>
    match skipWs cs with
    | ',' :: rest =>
      match parseValue fuel rest with
      | some (v, r1) =>
        match parseArraySep fuel r1 with
        | some (vs, r2) => some (v :: vs, r2)
        | none => none
      | none => none
    | ']' :: rest => some ([], rest)
    | _ => none

/-- One `"key": value` member. -/
def parseMember : Nat → List Char → Option (String × Json × List Char)
  | 0, _ => none
  | fuel + 1, cs =>
    match skipWs cs with
    | '"' :: rest =>
      match parseStringBody (rest.length + 1) [] rest with
      | some (k, r1) =>
        match skipWs r1 with
        | ':' :: r2 =>
          match parseValue fuel r2 with
          | some (v, r3) => some (k, v, r3)
          | none => none
        | _ => none
      | none => none
    | _ => none

/-- After an object member: `, member ...` or `}`. -/
def parseObjSep : Nat → List Char → Option (List (String × Json) × List Char)
  | 0, _ => none
  | fuel + 1, cs =>
    match skipWs cs with
    | ',' :: rest =>
      match parseMember fuel rest with
      | some (k, v, r1) =>
        match parseObjSep fuel r1 with
        | some (fields, r2) => some ((k, v) :: fields, r2)
        | none => none
      | none => none
    | '}' :: rest => some ([], rest)
    | _ => none

end

/-- `json.loads`: parse a complete value, allowing only trailing whitespace. -/
def jsonParse (s : String) : Option Json :=
  match parseValue (2 * s.data.length + 4) s.data with
  | some (v, rest) => if (skipWs rest).isEmpty then some v else none
  | none => none

end Server

namespace Server

/-- The apostrophe character, written via its code point. -/
def aposChar : Char := Char.ofNat 39

/-- A one-character string holding an apostrophe. -/
def aposStr : String := String.mk [aposChar]

/-- `_ARG_SYNONYMS` (server.py lines 169-175). -/
def ARG_SYNONYMS : List (String × String) :=
  [("filepath", "path"), ("file_path", "path"), ("filename", "path"),
   ("file", "path"), ("cmd", "command")]

/-- `_TOOL_NAME_SYNONYMS` (server.py lines 177-188). -/
def TOOL_NAME_SYNONYMS : List (String × String) :=
  [("writefile", "write"), ("write_file", "write"), ("save_file", "write"),
   ("save", "write"), ("create_file", "write"), ("readfile", "read"),
   ("read_file", "read"), ("open_file", "read"), ("edit_file", "edit"),
   ("apply_patch", "patch")]

/-- `table.get(k)` on a string-to-string table. -/
def tableGet (table : List (String × String)) (k : String) : Option String :=
  match table with
  | [] => none
  | (k', v) :: rest => if k' = k then some v else tableGet rest k

/-- `table.get(k, k)`. -/
def tableGetD (table : List (String × String)) (k : String) : String :=
  (tableGet table k).getD k

/-- `_normalize_tool_name` (lines 191-192): lower-case and drop `_`/`-`. -/
def normalize_tool_name (name : String) : String :=
  String.mk ((PyStr.lowerChars name.data).filter (fun c => c ≠ '_' ∧ c ≠ '-'))

/-- `_resolve_tool_name` (lines 195-203). -/
def resolve_tool_name (target : String) (allowed_tools : List String) : Option String :=
  let target_norm := normalize_tool_name target
  allowed_tools.findSome? (fun tool =>
    let norm := normalize_tool_name tool
    if norm = target_norm then some tool
    else if tableGet TOOL_NAME_SYNONYMS norm = some target_norm then some tool
    else none)

/-- Key folding used by `_normalize_args`: `key.lower().replace("_","").replace("-","")`. -/
def foldKey (key : String) : String :=
  String.mk ((PyStr.lowerChars key.data).filter (fun c => c ≠ '_' ∧ c ≠ '-'))

/-- Python dict update `d[k] = v` for a string-to-string dict. -/
def assocSetS (fields : List (String × String)) (k v : String) : List (String × String) :=
  match fields with
  | [] => [(k, v)]
  | (k', v') :: rest => if k' = k then (k, v) :: rest else (k', v') :: assocSetS rest k v

/-- `_normalize_args` (lines 206-239).  `allowed_params = none` models Python
`None`; the source treats `None` and `[]` alike (`if not allowed_params`). -/
def normalize_args (args : List (String × Json)) (allowed_params : Option (List String)) :
    List (String × Json) :=
  let ps := allowed_params.getD []
  if ps.isEmpty then
    args.foldl (fun normalized kv =>
      let (key, value) := kv
      let key_norm := foldKey key
      match tableGet ARG_SYNONYMS key_norm with
      | some synonym =>
        let n1 := assocSet normalized key value
        if synonym ≠ key then assocSet n1 synonym value else n1
      | none => assocSet normalized key value) []
  else
    let allowed_norm := ps.foldl (fun acc p => assocSetS acc (foldKey p) p) []
    args.foldl (fun normalized kv =>
      let (key, value) := kv
      let key_norm := foldKey key
      match tableGet allowed_norm key_norm with
      | some p => assocSet normalized p value
      | none =>
        if key_norm = "path" ∧ (tableGet allowed_norm "filepath").isSome then
          assocSet normalized ((tableGet allowed_norm "filepath").getD "") value
        else
          match tableGet ARG_SYNONYMS key_norm with
          | some synonym =>
            let syn_norm := foldKey synonym
            match tableGet allowed_norm syn_norm with
            | some p => assocSet normalized p value
            | none => assocSet normalized key value
          | none => assocSet normalized key value) []

end Server

namespace Server

/-- A candidate call before name/argument normalization (the dictionaries
built by `_coerce_tool_calls`): `name` and `arguments` are arbitrary JSON
values (missing keys are `null`, as in Python's `dict.get`). -/
structure RawCall where
  name : Json
  arguments : Json

/-- A normalized tool call (`{"name": ..., "arguments": {...}}` with a
string name from the allowed set and a dict argument map). -/
structure ToolCall where
  name : String
  arguments : List (String × Json)

/-- `tool_params_by_name.get(name)`. -/
def paramsGet (m : List (String × List String)) (k : String) : Option (List String) :=
  match m with
  | [] => none
  | (k', v) :: rest => if k' = k then some v else paramsGet rest k

/-- Python `a or b` on JSON values. -/
def jsonOr (a b : Json) : Json := if jsonTruthy a then a else b

/-- `_TOOL_NAME_SYNONYMS.get(name, name)` where `name` is a JSON value: only
string names can hit the (string-keyed) table.  (In Python an unhashable
`name` — a list or dict — would raise here; such calls are observably
dropped by the membership tests below either way.) -/
def synLookupJson (n : Json) : Json :=
  match n with
  | Json.str s =>
    match tableGet TOOL_NAME_SYNONYMS s with
    | some v => Json.str v
    | none => n
  | _ => n

/-- `_coerce_tool_calls` (server.py lines 275-292). -/
def coerce_tool_calls (raw_calls : List Json) : List RawCall :=
  raw_calls.foldl (fun acc call =>
    match call with
    | Json.obj fields =>
      if assocHas fields "name" ∧ assocHas fields "arguments" then
        acc ++ [⟨(assocGet fields "name").getD Json.null,
                 (assocGet fields "arguments").getD (Json.obj [])⟩]
      else
        match assocGet fields "function" with
        | some (Json.obj ffields) =>
          acc ++ [⟨jsonOr ((assocGet ffields "name").getD Json.null)
                     ((assocGet fields "name").getD Json.null),
                   (assocGet ffields "arguments").getD (Json.obj [])⟩]
        | _ => acc
    | _ => acc) []

/-- `_normalize_tool_calls` (server.py lines 242-272): resolve each name via
the synonym table and the allowed set (with the `write`/`edit` substring
recovery), parse string-valued arguments, drop anything else, and normalize
argument keys.  Returns `none` for an empty result (`normalized or None`). -/
def normalize_tool_calls (tool_calls : List RawCall) (allowed_tools : List String)
    (tool_params_by_name : List (String × List String)) : Option (List ToolCall) :=
  let normalized := tool_calls.foldl (fun acc call =>
    let name0 := call.name
    let name1 := if jsonTruthy name0 then synLookupJson name0 else name0
    let nameOk : Option String :=
      match name1 with
      | Json.str s =>
        if jsonTruthy name1 ∧ allowed_tools.contains s then some s
        else if s = "write" ∨ s = "edit" then
          allowed_tools.find? (fun t => PyStr.pyContains t s)
        else none
      | _ => none
    match nameOk with
    | none => acc
    | some name =>
      let args1 : Option Json :=
        match call.arguments with
        | Json.str s => jsonParse s
        | a => some a
      match args1 with
      | some (Json.obj fields) =>
        acc ++ [⟨name, normalize_args fields (paramsGet tool_params_by_name name)⟩]
      | _ => acc) []
  if normalized.isEmpty then none else some normalized

/-- Drop the first `n` characters of a string (Python `s[n:]`). -/
def strDrop (s : String) (n : Nat) : String := String.mk (s.data.drop n)

/-- First index of character `c` (Python `s.find(c)`, `none` for `-1`). -/
def strFind (s : String) (c : Char) : Option Nat :=
  PyStr.findSub s.data [c]

/-- Last index of character `c` (Python `s.rfind(c)`, `none` for `-1`). -/
def strRFind (s : String) (c : Char) : Option Nat :=
  match PyStr.findSub s.data.reverse [c] with
  | some i => some (s.data.length - 1 - i)
  | none => none

/-- Python slice `s[a:b]` (with `a ≤ b` in all uses here). -/
def strSlice (s : String) (a b : Nat) : String :=
  String.mk ((s.data.drop a).take (b - a))

/-- `_repair_json` (server.py lines 132-166): strip markdown fences and a
leading `json` tag, try a strict parse, then the outermost `[...]` span,
then the outermost `{...}` span, with quote/trailing-comma repair. -/
def repair_json (raw0 : String) : Option Json :=
  let raw1 := PyStr.pyStrip raw0
  let raw := if PyStr.pyStartsWith raw1 "```" then
      let r := PyStr.pyStripChars "`\n ".data raw1
      if PyStr.pyStartsWith r "json" then PyStr.pyStrip (strDrop r 4) else r
    else raw1
  match jsonParse raw with
  | some v => some v
  | none =>
    let trySnippet (sn : String) : Option Json :=
      match jsonParse sn with
      | some v => some v
      | none =>
        jsonParse (PyStr.pyReplace (PyStr.pyReplace (PyStr.pyReplace sn aposStr "\"")
          ",\x7d" "\x7d") ",]" "]")
    let arrAttempt : Option Json :=
      match strFind raw '[', strRFind raw ']' with
      | some s, some e => if s < e then trySnippet (strSlice raw s (e + 1)) else none
      | _, _ => none
    match arrAttempt with
    | some v => some v
    | none =>
      match strFind raw '\x7b', strRFind raw '\x7d' with
      | some s, some e => if s < e then trySnippet (strSlice raw s (e + 1)) else none
      | _, _ => none

/-- `_extract_tool_call` (server.py lines 295-338): the structured-parse
stage of the synthesizer. -/
def extract_tool_call (text : String) (allowed_tools : List String)
    (tool_params_by_name : List (String × List String)) : Option (List ToolCall) :=
  if text = "" then none
  else
    match repair_json text with
    | none => none
    | some data =>
      if !jsonTruthy data then none
      else
        match data with
        | Json.arr items =>
          normalize_tool_calls (coerce_tool_calls items) allowed_tools tool_params_by_name
        | Json.obj fields =>
          if assocHas fields "function" ∧ !assocHas fields "tool_calls"
              ∧ !assocHas fields "tool" then
            normalize_tool_calls (coerce_tool_calls [data]) allowed_tools tool_params_by_name
          else
            match assocGet fields "tool_calls" with
            | some (Json.arr items) =>
              normalize_tool_calls (coerce_tool_calls items) allowed_tools tool_params_by_name
            | _ =>
              if assocHas fields "tool" ∧ assocHas fields "arguments" then
                normalize_tool_calls
                  [⟨(assocGet fields "tool").getD Json.null,
                    (assocGet fields "arguments").getD Json.null⟩]
                  allowed_tools tool_params_by_name
              else none
        | _ => none

end Server

namespace Server

/-- Whitespace class of the `re` module (pattern `\s`, ASCII). -/
def reIsSpace (c : Char) : Bool :=
  c = ' ' || c = '\t' || c = '\n' || c = '\r' || c = '\x0b' || c = '\x0c'

/-- Leftmost match of `re.search(r"[:=]\s*\"", after)`: returns `m.end()`,
the index just past the opening quote. -/
def findColonQuote : List Char → Option Nat
  | [] => none
  | c :: rest =>
    match
      (if c = ':' ∨ c = '=' then
        let ws := rest.takeWhile reIsSpace
        if (rest.drop ws.length).head? = some '"' then some (2 + ws.length) else none
      else none) with
    | some n => some n
    | none => (findColonQuote rest).map (· + 1)

/-- The forward scan of `_scan_quoted_value` (server.py lines 383-396):
collect characters until an unescaped quote, tracking the escape flag; if
the quote is never closed, return everything (truncated generation). -/
def scanQuotedBody : Bool → List Char → List Char → String
  | _, acc, [] => String.mk acc.reverse
  | escaped, acc, c :: rest =>
    if c = '\\' ∧ !escaped then scanQuotedBody true (c :: acc) rest
    else if c = '"' ∧ !escaped then String.mk acc.reverse
    else scanQuotedBody false (c :: acc) rest

/-- `_scan_quoted_value` (server.py lines 374-396): find the key
(case-insensitively), then `[:=]\s*"`, then scan the quoted value. -/
def scan_quoted_value (src : String) (key : String) : Option String :=
  match PyStr.findSub (PyStr.lowerChars src.data) key.data with
  | none => none
  | some key_idx =>
    let after := src.data.drop (key_idx + key.data.length)
    match findColonQuote after with
    | none => none
    | some mEnd => some (scanQuotedBody false [] (after.drop mEnd))

/-- Python `a or b` where both sides are string-or-`None`. -/
def pyOrStr (a b : Option String) : Option String :=
  match a with
  | some s => if s ≠ "" then some s else b
  | none => b

/-- The candidate keyword list of `_extract_partial_tool_call` (lines
351-363). -/
def PARTIAL_CANDIDATES : List String :=
  ["write", "write_file", "writefile", "save_file", "edit", "edit_file",
   "apply_patch", "read", "read_file", "readfile", "open_file"]

/-- `_extract_partial_tool_call` (server.py lines 341-425): recover a call
from raw (possibly truncated) text by keyword and quoted-value scanning. -/
def extract_partial_tool_call (text : String) (allowed_tools : List String)
    (tool_params_by_name : List (String × List String)) : Option (List ToolCall) :=
  if text = "" then none
  else
    let scan_text := PyStr.pyReplace text "\\\"" "\""
    let lowered := PyStr.pyLower scan_text
    let tool_name0 : Option String :=
      (PARTIAL_CANDIDATES.find? (fun c => PyStr.pyContains lowered c)).map
        (fun c => tableGetD TOOL_NAME_SYNONYMS c)
    let tool_name1 : Option String :=
      match tool_name0 with
      | some tn =>
        if allowed_tools.contains tn then some tn
        else allowed_tools.find? (fun t => PyStr.pyContains t tn)
      | none => none
    match tool_name1 with
    | none => none
    | some tool_name =>
      let path0 := pyOrStr (scan_quoted_value scan_text "filepath")
        (scan_quoted_value scan_text "file_path")
      let path : Option String :=
        match path0 with
        | none => pyOrStr (scan_quoted_value scan_text "path")
            (scan_quoted_value scan_text "filename")
        | some p => some p
      let content : Option String :=
        match scan_quoted_value scan_text "content" with
        | some ct => some (PyStr.pyRStripChars "\x7d\" ".data (PyStr.pyRStrip ct))
        | none => none
      let pathTruthy : Bool := match path with
        | some s => s != ""
        | none => false
      if (tool_name == "write" || tool_name == "edit") && (!pathTruthy || content.isNone) then
        none
      else if tool_name == "read" && !pathTruthy then none
      else if tool_name == "read" && pathTruthy &&
          (let cleaned := PyStr.pyStrip (path.getD "")
           cleaned == "." || cleaned == "./" || PyStr.pyEndsWith cleaned "/" ||
             PyStr.pyEndsWith cleaned "\\") then
        none
      else
        let args0 : List (String × Json) :=
          (if pathTruthy then [("path", Json.str (path.getD ""))] else []) ++
          (match content with
           | some ct => [("content", Json.str ct)]
           | none => [])
        let args := normalize_args args0 (paramsGet tool_params_by_name tool_name)
        if args.isEmpty then none else some [⟨tool_name, args⟩]

/-- Python `x or y or z` over JSON lookups (used for the path-like keys). -/
def pyOrJ (a b : Option Json) : Option Json :=
  match a with
  | some v => if jsonTruthy v then some v else b
  | none => b

set_option linter.unusedVariables false in
/-- `_is_valid_write_call` (server.py lines 428-450): inspect the first call
only; `read` needs a non-empty, non-directory path; `write`/`edit` need
non-blank string `content` and some path-like key.  The `user_text`
parameter is unused in the source body and kept for fidelity. -/
def is_valid_write_call (user_text : String) (tool_calls : List ToolCall) : Bool :=
  match tool_calls with
  | [] => false
  | call :: _ =>
    if call.name ≠ "write" ∧ call.name ≠ "edit" ∧ call.name ≠ "read" then true
    else
      let args := call.arguments
      if call.name = "read" then
        match pyOrJ (pyOrJ (assocGet args "path") (assocGet args "filePath"))
            (assocGet args "file_path") with
        | some (Json.str p) =>
          if PyStr.pyStrip p = "" then false
          else
            let cleaned := PyStr.pyStrip p
            if cleaned = "." ∨ cleaned = "./" ∨ PyStr.pyEndsWith cleaned "/" ∨
                PyStr.pyEndsWith cleaned "\\" then false
            else true
        | _ => false
      else
        match assocGet args "content" with
        | some (Json.str ct) =>
          if PyStr.pyStrip ct = "" then false
          else if ["path", "filePath", "file_path"].any (fun k => assocHas args k) then true
          else false
        | _ => false

/-- `_fallback_tool_call` (server.py lines 453-496): the listing heuristic. -/
def fallback_tool_call (user_text : String) (allowed_tools : List String)
    (tool_params_by_name : List (String × List String)) : Option (List ToolCall) :=
  let text := PyStr.pyLower user_text
  let list_intent := ["list", "show", "inspect", "files", "folders",
    "directories", "ls", "tree"]
  if ¬ list_intent.any (fun k => PyStr.pyContains text k) then none
  else if allowed_tools.contains "glob" then
    let params := (paramsGet tool_params_by_name "glob").getD []
    let args : List (String × Json) :=
      if params.contains "pattern" then [("pattern", Json.str "**/*")]
      else if params.contains "path" then [("path", Json.str ".")]
      else if params.contains "cwd" then [("cwd", Json.str ".")]
      else []
    some [⟨"glob", args⟩]
  else
    match ["ls", "list", "list_dir"].find? (fun c => allowed_tools.contains c) with
    | some candidate =>
      let params := (paramsGet tool_params_by_name candidate).getD []
      let args : List (String × Json) :=
        if params.contains "path" then [("path", Json.str ".")]
        else if params.contains "cwd" then [("cwd", Json.str ".")]
        else []
      some [⟨candidate, args⟩]
    | none => none

end Server

namespace Server

/-- Word characters of the `re` pattern `\w` (ASCII). -/
def isWordChar (c : Char) : Bool := c.isAlphanum || c = '_'

/-- The character class `[-\w./]` of the candidate pattern. -/
def isBareChar (c : Char) : Bool := isWordChar c || c = '.' || c = '/' || c = '-'

/-- Match a quoted candidate (`` `...` ``, `"..."` or a single-quoted one) at
the head of `cs`: the captured body and the whole match length. -/
def matchQuoted (q : Char) (cs : List Char) : Option (String × Nat) :=
  match cs with
  | c :: rest =>
    if c = q then
      let run := rest.takeWhile (fun ch => ch ≠ q)
      if run.isEmpty then none
      else if (rest.drop run.length).head? = some q then
        some (String.mk run, run.length + 2)
      else none
    else none
  | [] => none

/-- Match the bare-token alternative `[-\w./]+\.[A-Za-z0-9]+` at the head of
`cs`, with the greedy backtracking of the `re` engine: the first group takes
the longest prefix of the `[-\w./]` run that ends just before a dot followed
by an alphanumeric, and the extension is the maximal alphanumeric run. -/
def matchBare (cs : List Char) : Option (String × Nat) :=
  let R := cs.takeWhile isBareChar
  if R.isEmpty then none
  else
    match ((List.range R.length).filter (fun j =>
        1 ≤ j ∧ R.getD j ' ' = '.' ∧ j + 1 < R.length ∧
          (R.getD (j + 1) ' ').isAlphanum)).getLast? with
    | some j =>
      let b := (R.drop (j + 1)).takeWhile Char.isAlphanum
      some (String.mk (R.take j ++ '.' :: b), j + 1 + b.length)
    | none => none

/-- One alternative of the candidate pattern
`` r'`([^`]+)`|"([^"]+)"|\'([^\']+)\'|([-\w./]+\.[A-Za-z0-9]+)' `` tried in
order at the current position. -/
def matchCandidate (cs : List Char) : Option (String × Nat) :=
  match matchQuoted '`' cs with
  | some r => some r
  | none =>
    match matchQuoted '"' cs with
    | some r => some r
    | none =>
      match matchQuoted aposChar cs with
      | some r => some r
      | none => matchBare cs

/-- `re.finditer` over the candidate pattern: leftmost, non-overlapping
matches, each contributing its first non-`None` group (fuel-based scan). -/
def findCandidates : Nat → List Char → List String
  | 0, _ => []
  | _ + 1, [] => []
  | fuel + 1, c :: rest =>
    match matchCandidate (c :: rest) with
    | some (cap, len) => cap :: findCandidates fuel (List.drop len (c :: rest))
    | none => findCandidates fuel rest

/-- The candidate cleaning loop (server.py lines 536-540):
`c.strip().strip(".,:;!?)")`, dropping empties. -/
def cleanCandidates (cands : List String) : List String :=
  cands.foldr (fun c acc =>
    let cleaned := PyStr.pyStripChars ".,:;!?)".data (PyStr.pyStrip c)
    if cleaned ≠ "" then cleaned :: acc else acc) []

/-- All candidates extracted and cleaned from the raw user text (lines
513-540). -/
def cleanedCandidatesOf (user_text_raw : String) : List String :=
  cleanCandidates (findCandidates (user_text_raw.data.length + 1) user_text_raw.data)

/-- `re.search(r"\\.[A-Za-z0-9]{1,6}$", candidate)` — note the doubled
backslash: this matches a literal backslash, one further character (not a
newline), and one to six alphanumerics at the end of the candidate. -/
def backslashExtMatch (c : String) : Bool :=
  let L := c.data
  (List.range L.length).any (fun i =>
    L.getD i ' ' = '\\' ∧ i + 2 ≤ L.length ∧ L.getD (i + 1) '\n' ≠ '\n' ∧
      1 ≤ L.length - (i + 2) ∧ L.length - (i + 2) ≤ 6 ∧
      (L.drop (i + 2)).all Char.isAlphanum)

/-- `_score` (server.py lines 524-534). -/
def scoreCandidate (c : String) : Nat :=
  (if PyStr.pyContains c "/" || PyStr.pyContains c "\\" then 2 else 0) +
  (if backslashExtMatch c then 3 else 0) +
  (if [".txt", ".md", ".json", ".py", ".yaml", ".yml", ".toml"].any
      (fun e => PyStr.pyEndsWith c e) then 2 else 0) +
  (if c.data.length > 2 then 1 else 0)

/-- Python's `max(l, key=f)`: the first element attaining the maximum. -/
def pyMaxBy (f : String → Nat) : List String → Option String
  | [] => none
  | x :: xs => some (xs.foldl (fun best c => if f c > f best then c else best) x)

/-- `_fallback_read_call` (server.py lines 499-573).  The filesystem-
dependent bare-filename disambiguation (lines 553-563: `glob.glob` over the
working tree) is abstracted as the `resolve` argument; it is applied exactly
when the source would consult the filesystem, i.e. for a relative path with
no separators. -/
def fallback_read_call (resolve : String → String) (user_text_raw : String)
    (allowed_tools : List String) (tool_params_by_name : List (String × List String)) :
    Option (List ToolCall) :=
  match resolve_tool_name "read" allowed_tools with
  | none => none
  | some tool_name =>
    let lowered := PyStr.pyLower user_text_raw
    let read_intent := ["read", "open", "show", "cat", "contents",
      "what is in", String.mk ("what".data ++ [aposChar] ++ "s in".data), "display"]
    if ¬ read_intent.any (fun k => PyStr.pyContains lowered k) then none
    else
      let candidates := findCandidates (user_text_raw.data.length + 1) user_text_raw.data
      if candidates.isEmpty then none
      else
        let cleaned_candidates := cleanCandidates candidates
        if cleaned_candidates.isEmpty then none
        else
          match pyMaxBy scoreCandidate cleaned_candidates with
          | none => none
          | some path0 =>
            if ¬ (path0.data.any (fun c => c = '.' ∨ c = '/' ∨ c = '\\')) then none
            else if path0 = "" then none
            else
              let path := if ¬ PyStr.pyStartsWith path0 "/" ∧ ¬ PyStr.pyContains path0 "/"
                  ∧ ¬ PyStr.pyContains path0 "\\" then resolve path0 else path0
              let params := paramsGet tool_params_by_name tool_name
              let args : List (String × Json) :=
                match params with
                | none => [("path", Json.str path), ("filePath", Json.str path)]
                | some ps =>
                  if ps.isEmpty then [("path", Json.str path), ("filePath", Json.str path)]
                  else
                    let a := normalize_args [("path", Json.str path)] (some ps)
                    if ps.contains "filePath" ∧ ¬ (assocHas a "filePath" = true) then
                      assocSet a "filePath" (Json.str path)
                    else a
              some [⟨tool_name, args⟩]

end Server

namespace Server

/-- `_collect_glm_response` (server.py lines 673-691): concatenate the
`content` events of the backend stream and strip; every other event type —
including `error` — is discarded. -/
def collect_glm_response (events : List ApiClient.SEvent) : String :=
  PyStr.pyStrip (String.join (events.foldr (fun e acc =>
    match e with
    | ApiClient.SEvent.content s => s :: acc
    | _ => acc) []))

/-- The response shapes the non-streaming handler can return: an OpenAI
tool-call response (`finish_reason=tool_calls`) or an ordinary assistant
content response (`finish_reason=stop`). -/
inductive ProxyResponse where
  | toolCalls (calls : List ToolCall)
  | content (text : String)

/-- Lines 912-914 of `chat_completions`: the structured parse, falling back
to partial recovery. -/
def synthesize_tool_calls (full_text : String) (allowed_tools : List String)
    (tool_params_by_name : List (String × List String)) : Option (List ToolCall) :=
  match extract_tool_call full_text allowed_tools tool_params_by_name with
  | some tc => some tc
  | none => extract_partial_tool_call full_text allowed_tools tool_params_by_name

/-- The tool-response dispatch of the non-streaming handler
(`chat_completions`, server.py lines 911-927; the streaming branch, lines
871-892, is the same decision): synthesize, re-validate, repair via the read
fallback, re-validate again, then the listing fallback for actionable
requests, and finally the raw text as ordinary content. -/
def tool_stage_decision (resolve : String → String)
    (full_text last_user_raw last_user : String) (allowed_tools : List String)
    (tool_params_by_name : List (String × List String)) (actionable : Bool) :
    ProxyResponse :=
  let tool_call0 := synthesize_tool_calls full_text allowed_tools tool_params_by_name
  let tool_call : Option (List ToolCall) :=
    match tool_call0 with
    | some tc =>
      if ¬ is_valid_write_call last_user tc then
        fallback_read_call resolve last_user_raw allowed_tools tool_params_by_name
      else some tc
    | none => none
  let emitted : Option (List ToolCall) :=
    match tool_call with
    | some tc => if is_valid_write_call last_user tc then some tc else none
    | none => none
  match emitted with
  | some tc => ProxyResponse.toolCalls tc
  | none =>
    match (if actionable then
        fallback_tool_call last_user allowed_tools tool_params_by_name
      else none) with
    | some fb => ProxyResponse.toolCalls fb
    | none => ProxyResponse.content full_text

/-- Lines 929-930 of `chat_completions`: with no tools declared, the
non-streaming handler returns the collected text as an ordinary completion
(`_openai_response(full_text, model)`), whatever the stream contained. -/
def no_tools_response (events : List ApiClient.SEvent) : ProxyResponse :=
  ProxyResponse.content (collect_glm_response events)

end Server

namespace Server

/-- Python's `max(l, key=f)` returns an element of `l`. -/
theorem pyMaxBy_mem (f : String → Nat) (l : List String) (x : String)
    (h : pyMaxBy f l = some x) : x ∈ l := by
  match l with
  | [] => simp [pyMaxBy] at h
  | y :: ys =>
    simp only [pyMaxBy, Option.some.injEq] at h
    subst h
    have aux : ∀ (xs : List String) (best : String),
        xs.foldl (fun b c => if f c > f b then c else b) best = best ∨
        xs.foldl (fun b c => if f c > f b then c else b) best ∈ xs := by
      intro xs
      induction xs with
      | nil => intro best; left; rfl
      | cons z zs ih =>
        intro best
        simp only [List.foldl_cons]
        rcases ih (if f z > f best then z else best) with h' | h'
        · rw [h']
          by_cases hc : f z > f best
        
          · rw [if_pos hc]; right; exact List.mem_cons_self z zs
          · rw [if_neg hc]; left; rfl
        · right; exact List.mem_cons_of_mem z h'
    rcases aux ys y with h' | h'
    · rw [h']; exact List.mem_cons_self y ys
    · exact List.mem_cons_of_mem y h'

end Server

/-- The exact model-output text of the C4 scenario. -/
def c4text : String :=
  "\x7b\"tool\":\"writeFile\",\"arguments\":\x7b\"filepath\":\"a.txt\",\"content\":\"hi\"\x7d\x7d"

/-- C4 counterexample: on the spec's own example — allowed tools
`["write","read"]` and model output
`{"tool":"writeFile","arguments":{"filepath":"a.txt","content":"hi"}}` —
the structured-parse stage (`_extract_tool_call`) returns `None`, not a
`write` call: `_normalize_tool_calls` looks `"writeFile"` up in the
lower-case-keyed synonym table case-sensitively (missing it) and its
recovery branch only handles the exact names `write`/`edit`. -/
theorem C4_extract_counterexample :
    Server.extract_tool_call c4text ["write", "read"] [] = none := rfl

/-- C4 amended: the structured-parse stage returns `None` on this input;
the call is instead synthesized by the partial-recovery stage
(`_extract_partial_tool_call`), which matches the `write` keyword inside
`"writeFile"`, scans the quoted values of `filepath` and `content`, and
returns a call named `write` with arguments `path="a.txt"`, `content="hi"`.
So the pipeline as a whole (structured parse, then partial recovery) does
map the example to `write path="a.txt"` — but at stage 4.4, not 4.3. -/
theorem C4_partial_recovery_amended :
    Server.extract_tool_call c4text ["write", "read"] [] = none ∧
    Server.extract_partial_tool_call c4text ["write", "read"] [] =
      some [⟨"write", [("path", Server.Json.str "a.txt"),
                       ("content", Server.Json.str "hi")]⟩] ∧
    Server.synthesize_tool_calls c4text ["write", "read"] [] =
      some [⟨"write", [("path", Server.Json.str "a.txt"),
                       ("content", Server.Json.str "hi")]⟩] :=
  ⟨rfl, rfl, rfl⟩

/-- C7: when the backend stream yields no `content` events (for example only
the terminal `error` event produced for a connection/HTTP failure),
`_collect_glm_response` returns the empty string — the `error` event is
discarded — and the non-streaming no-tools handler returns an ordinary
completion whose assistant content is empty, surfacing nothing: the code
*does* silently return empty content, contradicting the claim's requirement
(which matches the repository's own eval assertion `check_content_nonempty`).
-/
theorem C7_error_swallowed (events : List ApiClient.SEvent)
    (h : events.all (fun e => match e with
      | ApiClient.SEvent.content _ => false
      | _ => true) = true) :
    Server.collect_glm_response events = "" ∧
    Server.no_tools_response events = Server.ProxyResponse.content "" := by
  have hl : events.foldr (fun e acc =>
      match e with
      | ApiClient.SEvent.content s => s :: acc
      | _ => acc) [] = ([] : List String) := by
    induction events with
    | nil => rfl
    | cons e es ih =>
      simp only [List.all_cons, Bool.and_eq_true] at h
      simp only [List.foldr_cons, ih h.2]
      match e with
      | ApiClient.SEvent.content s => simp at h
      | ApiClient.SEvent.thinking s => rfl
      | ApiClient.SEvent.thinkingEnd => rfl
      | ApiClient.SEvent.done => rfl
      | ApiClient.SEvent.error s => rfl
  constructor
  · unfold Server.collect_glm_response
    rw [hl]
    rfl
  · unfold Server.no_tools_response Server.collect_glm_response
    rw [hl]
    rfl

/-- Witness for C7: the failing input — a stream holding only the terminal
error event of a failed backend call. -/
theorem C7_error_swallowed_witness :
    Server.collect_glm_response [ApiClient.SEvent.error "Connection refused"] = "" ∧
    Server.no_tools_response [ApiClient.SEvent.error "Connection refused"] =
      Server.ProxyResponse.content "" :=
  C7_error_swallowed [ApiClient.SEvent.error "Connection refused"] (by decide)

/-- C10: `_is_valid_write_call` inspects only the first element of the
tool-call list: for a non-empty list whose first call is not named `write`,
`edit` or `read` it returns `True` unconditionally (the arguments of that
call and all later calls are never examined — the validator result does not
depend on the tail at all), and any list that validates is emitted to the
client as-is by the dispatch, so an invalid `write`/`edit` call after the
first position is accepted and emitted. -/
theorem C10_validator_first_only :
    (∀ (lu : String) (c : Server.ToolCall) (rest : List Server.ToolCall),
      c.name ∉ (["write", "edit", "read"] : List String) →
      Server.is_valid_write_call lu (c :: rest) = true) ∧
    (∀ (lu : String) (c : Server.ToolCall) (rest rest' : List Server.ToolCall),
      Server.is_valid_write_call lu (c :: rest) =
        Server.is_valid_write_call lu (c :: rest')) ∧
    (∀ (resolve : String → String) (ft lur lu : String) (allowed : List String)
      (pm : List (String × List String)) (act : Bool) (calls : List Server.ToolCall),
      Server.synthesize_tool_calls ft allowed pm = some calls →
      Server.is_valid_write_call lu calls = true →
      Server.tool_stage_decision resolve ft lur lu allowed pm act =
        Server.ProxyResponse.toolCalls calls) := by
  refine ⟨?_, ?_, ?_⟩
  · intro lu c rest hname
    simp only [List.mem_cons, List.mem_singleton, not_or] at hname
    show (if c.name ≠ "write" ∧ c.name ≠ "edit" ∧ c.name ≠ "read" then true
      else _) = true
    rw [if_pos ⟨hname.1, hname.2.1, hname.2.2.1⟩]
  · intro lu c rest rest'
    rfl
  · intro resolve ft lur lu allowed pm act calls hsynth hvalid
    unfold Server.tool_stage_decision
    rw [hsynth]
    simp [hvalid]

/-- Witness for C10: a synthesized list whose first call is `bash` (not
`write`/`edit`/`read`) followed by a `write` call with no arguments at all
validates and is emitted unchanged. -/
theorem C10_validator_first_only_witness :
    Server.is_valid_write_call ""
      [⟨"bash", []⟩, ⟨"write", []⟩] = true ∧
    Server.tool_stage_decision id
      "[\x7b\"name\":\"bash\",\"arguments\":\x7b\x7d\x7d,\x7b\"name\":\"write\",\"arguments\":\x7b\x7d\x7d]"
      "" "" ["bash", "write"] [] false =
      Server.ProxyResponse.toolCalls [⟨"bash", []⟩, ⟨"write", []⟩] :=
  ⟨C10_validator_first_only.1 "" ⟨"bash", []⟩ [⟨"write", []⟩] (by decide),
   C10_validator_first_only.2.2 id
     "[\x7b\"name\":\"bash\",\"arguments\":\x7b\x7d\x7d,\x7b\"name\":\"write\",\"arguments\":\x7b\x7d\x7d]"
     "" "" ["bash", "write"] [] false [⟨"bash", []⟩, ⟨"write", []⟩] rfl
     (C10_validator_first_only.1 "" ⟨"bash", []⟩ [⟨"write", []⟩] (by decide))⟩

/-- C5: whenever the synthesized tool-call list has a first call named
`write` or `edit` whose `content` argument is missing or blank (or which
has no path-like key among `path`/`filePath`/`file_path`), validation
fails and the dispatch never emits that list: it falls through to the read
fallback (re-validated), then the listing fallback (for actionable
requests), and otherwise returns the raw text as ordinary assistant
content. -/
theorem C5_invalid_write_rejected (resolve : String → String)
    (full_text last_user_raw last_user : String) (allowed : List String)
    (pm : List (String × List String)) (actionable : Bool)
    (c : Server.ToolCall) (rest : List Server.ToolCall)
    (hsynth : Server.synthesize_tool_calls full_text allowed pm = some (c :: rest))
    (hname : c.name = "write" ∨ c.name = "edit")
    (hbad : (Server.assocGet c.arguments "content" = none ∨
             ∃ ct, Server.assocGet c.arguments "content" = some (Server.Json.str ct) ∧
               PyStr.pyStrip ct = "") ∨
            (∀ k ∈ (["path", "filePath", "file_path"] : List String),
              Server.assocHas c.arguments k = false)) :
    Server.is_valid_write_call last_user (c :: rest) = false ∧
    Server.tool_stage_decision resolve full_text last_user_raw last_user allowed pm
        actionable =
      (match Server.fallback_read_call resolve last_user_raw allowed pm with
       | some r =>
         if Server.is_valid_write_call last_user r then Server.ProxyResponse.toolCalls r
         else
           match (if actionable then
               Server.fallback_tool_call last_user allowed pm
             else none) with
           | some fb => Server.ProxyResponse.toolCalls fb
           | none => Server.ProxyResponse.content full_text
       | none =>
         match (if actionable then
             Server.fallback_tool_call last_user allowed pm
           else none) with
         | some fb => Server.ProxyResponse.toolCalls fb
         | none => Server.ProxyResponse.content full_text) := by
  have hne : c.name ≠ "read" := by
    rcases hname with hn | hn <;> rw [hn] <;> decide
  have hvalid : Server.is_valid_write_call last_user (c :: rest) = false := by
    show (if c.name ≠ "write" ∧ c.name ≠ "edit" ∧ c.name ≠ "read" then true
      else if c.name = "read" then _ else _) = false
    rw [if_neg (by rcases hname with hn | hn <;> rw [hn] <;> decide), if_neg hne]
    rcases hbad with hcont | hkeys
    · rcases hcont with hnone | ⟨ct, hct, hstrip⟩
      · rw [hnone]
      · rw [hct]
        simp [hstrip]
    · match hcv : Server.assocGet c.arguments "content" with
      | none => rfl
      | some Server.Json.null => rfl
      | some (Server.Json.bool b) => rfl
      | some (Server.Json.num r) => rfl
      | some (Server.Json.arr l) => rfl
      | some (Server.Json.obj f) => rfl
      | some (Server.Json.str ct) =>
        show (if PyStr.pyStrip ct = "" then false
          else if (["path", "filePath", "file_path"].any
              fun k => Server.assocHas c.arguments k) = true then true else false) = false
        by_cases hstrip : PyStr.pyStrip ct = ""
        · rw [if_pos hstrip]
        · rw [if_neg hstrip]
          simp [hkeys "path" (by simp), hkeys "filePath" (by simp),
            hkeys "file_path" (by simp)]
  refine ⟨hvalid, ?_⟩
  unfold Server.tool_stage_decision
  rw [hsynth]
  simp only [hvalid, Bool.false_eq_true, not_false_eq_true, if_true]
  cases hfb : Server.fallback_read_call resolve last_user_raw allowed pm with
  | none => rfl
  | some r =>
    cases hr : Server.is_valid_write_call last_user r with
    | true => simp [hr]
    | false => simp [hr]

/-- The model-output text of the C5 witness: a `write` call with a path but
no `content` at all. -/
def c5text : String :=
  "\x7b\"tool\":\"write\",\"arguments\":\x7b\"path\":\"a.txt\"\x7d\x7d"

/-- Witness for C5: the synthesizer parses `c5text` into a `write` call
with only a path; validation fails and, with no read intent and a
non-actionable request, the dispatch returns the raw text as content. -/
theorem C5_invalid_write_rejected_witness :
    Server.is_valid_write_call "hi"
      [⟨"write", [("path", Server.Json.str "a.txt")]⟩] = false ∧
    Server.tool_stage_decision id c5text "hi" "hi" ["write", "read"] [] false =
      Server.ProxyResponse.content c5text := by
  have h := C5_invalid_write_rejected id c5text "hi" "hi" ["write", "read"] [] false
    ⟨"write", [("path", Server.Json.str "a.txt")]⟩ [] rfl (Or.inl rfl)
    (Or.inl (Or.inl rfl))
  exact ⟨h.1, by rw [h.2]; rfl⟩

/-- C9: if no candidate token extracted from the user text survives
cleaning with a path separator (slash or backslash) or a dot in it, the
read-intent fallback heuristic returns `None` — it never invents a path:
the chosen maximum-scoring candidate is itself a cleaned candidate, and the
final `[./\]` check rejects it. -/
theorem C9_read_heuristic_no_invent (resolve : String → String) (raw : String)
    (allowed : List String) (pm : List (String × List String))
    (h : ∀ cand ∈ Server.cleanedCandidatesOf raw,
      cand.data.any (fun ch => ch = '.' ∨ ch = '/' ∨ ch = '\\') = false) :
    Server.fallback_read_call resolve raw allowed pm = none := by
  unfold Server.fallback_read_call
  cases hrt : Server.resolve_tool_name "read" allowed with
  | none => rfl
  | some tool_name =>
    dsimp only
    split
    · rfl
    · split
      · rfl
      · split
        · rfl
        · split
          · rfl
          · next path0 heq =>
            have hmem : path0 ∈ Server.cleanedCandidatesOf raw :=
              Server.pyMaxBy_mem _ _ _ heq
            rw [if_pos ?_]
            intro hany
            rw [h path0 hmem] at hany
            exact Bool.false_ne_true hany

/-- Witness for C9: `"read notes"` with the filename in backticks has the
single candidate `notes`, which carries no separator and no dot, so the
heuristic returns `None` even though read intent is present and a `read`
tool is declared. -/
theorem C9_read_heuristic_no_invent_witness :
    Server.fallback_read_call id "read `notes`" ["read"] [] = none :=
  C9_read_heuristic_no_invent id "read `notes`" ["read"] [] (by decide)
